import Mathlib

/-!
Verification of the `flowerpot` crate: a fixed-capacity, stack-allocated
LIFO container `FlowerPot<T, N>` storing up to `N` elements of type `T`
in an array of `MaybeUninit<T>` slots, with a `pos` cursor counting the
occupied prefix.

The Rust source (src/lib.rs) is embedded shallowly:
* a `MaybeUninit<T>` slot is modelled as an inductive that is either
  `uninit` or `init v`; reading a slot that is `uninit` as a `T` is
  undefined behavior in Rust, and the model makes such reads visible by
  returning the raw `MaybeUninit` content instead of a bare `T`;
* the array `[MaybeUninit<T>; N]` is a list of slots whose length is `N`
  (the length is part of the Rust array type, hence a structure field);
* `&mut self` methods are state transformers returning the updated store;
  a returned `&mut T` borrow is modelled by the write-back function the
  caller can use to store a new value through it;
* Rust's implicit drop of an owned argument is made observable: `push`
  additionally returns the list of values it dropped during the call
  (the source's early `return Err(..)` drops the consumed `item`).
-/

namespace Flowerpot

/-- Model of Rust `MaybeUninit<T>`: a memory slot that either holds a
valid `T` or is uninitialized. -/
inductive MaybeUninit (T : Type) where
  | uninit : MaybeUninit T
  | init (val : T) : MaybeUninit T
  deriving DecidableEq, Repr

/-- Model of the `io::ErrorKind` value used by the source: `push` on a
full store builds `io::Error::from(io::ErrorKind::StorageFull)`. -/
inductive ErrorKind where
  | storageFull
  deriving DecidableEq, Repr

/-- Model of `FlowerPot<T, N>`: `items: [MaybeUninit<T>; N]` and
`pos: usize`.  The array length being `N` is part of the Rust array
type, recorded here as the field `len_eq`. -/
structure FlowerPot (T : Type) (N : Nat) where
  items : List (MaybeUninit T)
  pos : Nat
  len_eq : items.length = N

/-- Model of `FlowerPot::new`: all slots uninitialized, `pos = 0`. -/
def FlowerPot.new (T : Type) (N : Nat) : FlowerPot T N :=
  { items := List.replicate N MaybeUninit.uninit
    pos := 0
    len_eq := List.length_replicate N MaybeUninit.uninit }

/-- Model of `FlowerPot::full`: `self.pos >= N`. -/
def FlowerPot.full {T : Type} {N : Nat} (p : FlowerPot T N) : Bool :=
  decide (p.pos ≥ N)

/-- Model of `FlowerPot::empty`: `self.pos == 0`. -/
def FlowerPot.empty {T : Type} {N : Nat} (p : FlowerPot T N) : Bool :=
  decide (p.pos = 0)

/-- Model of Rust `usize::checked_sub`: `none` on underflow. -/
def checked_sub (a b : Nat) : Option Nat :=
  if a < b then none else some (a - b)

/-- Model of `FlowerPot::len`: `match self.pos.checked_sub(1) with
None => 0, Some(num) => num`. -/
def FlowerPot.len {T : Type} {N : Nat} (p : FlowerPot T N) : Nat :=
  match checked_sub p.pos 1 with
  | none => 0
  | some num => num

/-- Model of `FlowerPot::push`.  Returns the Rust result, the store
after the call, and the list of values dropped during the call: on the
full path the source returns `Err` early and the consumed `item` is
dropped; on the success path `item.write` moves the value into slot
`pos` and `pos` is incremented. -/
def FlowerPot.push {T : Type} {N : Nat} (p : FlowerPot T N) (item : T) :
    Except ErrorKind Unit × FlowerPot T N × List T :=
  if p.full then
    (Except.error ErrorKind.storageFull, p, [item])
  else
    (Except.ok (),
      { items := p.items.set p.pos (MaybeUninit.init item)
        pos := p.pos + 1
        len_eq := by rw [List.length_set]; exact p.len_eq },
      [])

/-- Model of `FlowerPot::pop`.  On the non-empty path the source
decrements `pos` and `assume_init_read`s the slot at the new `pos`; the
read is modelled as returning the slot content (an `uninit` result marks
a read of uninitialized memory, which is UB in the source).  The slot
bits are not cleared, matching `assume_init_read`. -/
def FlowerPot.pop {T : Type} {N : Nat} (p : FlowerPot T N) :
    Option (MaybeUninit T) × FlowerPot T N :=
  if p.empty then
    (none, p)
  else
    (some (p.items.getD (p.pos - 1) MaybeUninit.uninit),
      { p with pos := p.pos - 1 })

/-- Model of `FlowerPot::get`.  The source checks `index > self.pos`
(not `index >= self.pos`) and otherwise unconditionally dereferences
slot `index` as a `T`; the dereference is modelled by returning the raw
slot content, with an out-of-array read also modelled as `uninit`
(both are UB reads). -/
def FlowerPot.get {T : Type} {N : Nat} (p : FlowerPot T N) (index : Nat) :
    Option (MaybeUninit T) :=
  if index > p.pos then
    none
  else
    some (p.items.getD index MaybeUninit.uninit)

/-- Model of `FlowerPot::get_mut`: same `index > self.pos` check as
`get`; the returned `&mut T` is modelled as the slot content together
with the write-back function of the borrow (writing `v` through it
stores `v` into slot `index` and touches nothing else). -/
def FlowerPot.get_mut {T : Type} {N : Nat} (p : FlowerPot T N) (index : Nat) :
    Option (MaybeUninit T × (T → FlowerPot T N)) :=
  if index > p.pos then
    none
  else
    some (p.items.getD index MaybeUninit.uninit,
      fun v =>
        { items := p.items.set index (MaybeUninit.init v)
          pos := p.pos
          len_eq := by rw [List.length_set]; exact p.len_eq })

/-- Model of `FlowerPot::get_init_slice`: returns `&[]` when `pos == 0`,
else the slice `&self.items[0..self.pos]` cast to `&[T]` — modelled as
the list of the first `pos` slots. -/
def FlowerPot.get_init_slice {T : Type} {N : Nat} (p : FlowerPot T N) :
    List (MaybeUninit T) :=
  if p.pos = 0 then
    []
  else
    p.items.take p.pos

/-- Model of `FlowerPot::get_init_slice_mut`: the same view as
`get_init_slice`, together with the write-back function of the mutable
borrow: writing `v` at view index `i` stores `v` into slot `i` when
`i` is inside the view `[0, pos)` (an out-of-range slice write panics
in Rust and reaches no slot). -/
def FlowerPot.get_init_slice_mut {T : Type} {N : Nat} (p : FlowerPot T N) :
    List (MaybeUninit T) × (Nat → T → FlowerPot T N) :=
  if p.pos = 0 then
    ([], fun _ _ => p)
  else
    (p.items.take p.pos,
      fun i v =>
        if i < p.pos then
          { items := p.items.set i (MaybeUninit.init v)
            pos := p.pos
            len_eq := by rw [List.length_set]; exact p.len_eq }
        else
          p)

/-- An operation of the store's public mutating interface. -/
inductive Op (T : Type) where
  | push (v : T) : Op T
  | pop : Op T

/-- Run a sequence of push/pop operations, discarding results. -/
def FlowerPot.run {T : Type} {N : Nat} (p : FlowerPot T N) :
    List (Op T) → FlowerPot T N
  | [] => p
  | Op.push v :: rest => ((p.push v).2.1).run rest
  | Op.pop :: rest => (p.pop.2).run rest

/-- Push a whole list of values in order, discarding results. -/
def FlowerPot.pushList {T : Type} {N : Nat} (p : FlowerPot T N) :
    List T → FlowerPot T N
  | [] => p
  | v :: rest => ((p.push v).2.1).pushList rest

/-- Pop `k` times, collecting the values returned (stopping early if a
pop reports the store empty). -/
def FlowerPot.popList {T : Type} {N : Nat} (p : FlowerPot T N) :
    Nat → List (MaybeUninit T) × FlowerPot T N
  | 0 => ([], p)
  | Nat.succ k =>
    match p.pop with
    | (none, q) => ([], q)
    | (some v, q) =>
      let r := q.popList k
      (v :: r.1, r.2)

/-! Helper lemmas about lists. -/

/-- Reading the slot just written by `set`. -/
theorem getD_set_self {α : Type} (l : List α) (n : Nat) (a d : α)
    (h : n < l.length) : (l.set n a).getD n d = a := by
  induction l generalizing n with
  | nil => simp at h
  | cons x xs ih =>
    cases n with
    | zero => simp [List.getD]
    | succ m =>
      simp only [List.set, List.getD_cons_succ]
      exact ih m (by simpa using h)

/-- `set` does not disturb other indices. -/
theorem getD_set_ne {α : Type} (l : List α) (n m : Nat) (a d : α)
    (h : n ≠ m) : (l.set n a).getD m d = l.getD m d := by
  induction l generalizing n m with
  | nil => simp
  | cons x xs ih =>
    cases n with
    | zero =>
      cases m with
      | zero => exact absurd rfl h
      | succ k => simp [List.getD]
    | succ j =>
      cases m with
      | zero => simp [List.getD]
      | succ k =>
        simp only [List.set, List.getD_cons_succ]
        exact ih j k (fun e => h (by rw [e]))

/-- A `set` at index `n` is invisible to `take n`. -/
theorem take_set_self {α : Type} (l : List α) (n : Nat) (a : α) :
    (l.set n a).take n = l.take n := by
  induction l generalizing n with
  | nil => simp
  | cons x xs ih =>
    cases n with
    | zero => simp
    | succ m => simp [List.set, ih]

/-- Taking one past a freshly `set` index appends the new element. -/
theorem take_succ_set {α : Type} (l : List α) (n : Nat) (a : α)
    (h : n < l.length) : (l.set n a).take (n + 1) = l.take n ++ [a] := by
  induction l generalizing n with
  | nil => simp at h
  | cons x xs ih =>
    cases n with
    | zero => simp
    | succ m =>
      simp only [List.set, List.take, List.cons_append, List.cons.injEq, true_and]
      exact ih m (by simpa using h)

/-- `getD` inside the taken prefix reads the original list. -/
theorem getD_take {α : Type} (l : List α) (n i : Nat) (d : α)
    (h : i < n) : (l.take n).getD i d = l.getD i d := by
  induction l generalizing n i with
  | nil => simp
  | cons x xs ih =>
    cases n with
    | zero => omega
    | succ m =>
      cases i with
      | zero => simp [List.getD]
      | succ j =>
        simp only [List.take, List.getD_cons_succ]
        exact ih m j (by omega)

/-- `getD` of an appended singleton at the junction index. -/
theorem getD_append_length {α : Type} (xs : List α) (y d : α) :
    (xs ++ [y]).getD xs.length d = y := by
  induction xs with
  | nil => simp [List.getD]
  | cons x t ih => simp only [List.cons_append, List.length_cons,
      List.getD_cons_succ, ih]

/-! The occupancy invariant relating a store to the list of values it
logically holds, and how each operation transforms it. -/

/-- `rep p vs` says the cursor counts exactly the elements of `vs` and
the occupied prefix holds them, initialized, in insertion order. -/
def rep {T : Type} {N : Nat} (p : FlowerPot T N) (vs : List T) : Prop :=
  p.pos = vs.length ∧ p.items.take p.pos = vs.map MaybeUninit.init

theorem rep_new (T : Type) (N : Nat) : rep (FlowerPot.new T N) [] := by
  constructor <;> simp [FlowerPot.new]

/-- A successful push extends the represented list on the right. -/
theorem push_rep {T : Type} {N : Nat} {p : FlowerPot T N} {vs : List T}
    (hr : rep p vs) (hlt : vs.length < N) (v : T) :
    (p.push v).1 = Except.ok () ∧ rep ((p.push v).2.1) (vs ++ [v]) := by
  obtain ⟨hpos, hpre⟩ := hr
  have hful : p.full = false := by
    simp [FlowerPot.full, hpos]; omega
  have hlen : p.pos < p.items.length := by rw [p.len_eq]; omega
  refine ⟨by simp [FlowerPot.push, hful], ?_, ?_⟩
  · simp [FlowerPot.push, hful, hpos]
  · simp only [FlowerPot.push, hful, Bool.false_eq_true, if_false]
    rw [take_succ_set p.items p.pos (MaybeUninit.init v) hlen, hpre]
    simp

/-- A pop on a non-empty represented store removes the last value and
returns it initialized. -/
theorem pop_rep {T : Type} {N : Nat} {p : FlowerPot T N} {vs : List T}
    {v : T} (hr : rep p (vs ++ [v])) :
    p.pop.1 = some (MaybeUninit.init v) ∧ rep (p.pop.2) vs := by
  obtain ⟨hpos, hpre⟩ := hr
  have hpos' : p.pos = vs.length + 1 := by simpa using hpos
  have hemp : p.empty = false := by simp [FlowerPot.empty, hpos']
  have hval : p.items.getD (p.pos - 1) MaybeUninit.uninit
      = MaybeUninit.init v := by
    have h1 : (p.items.take p.pos).getD vs.length MaybeUninit.uninit
        = p.items.getD vs.length MaybeUninit.uninit :=
      getD_take _ _ _ _ (by omega)
    have h2 : ((vs ++ [v]).map MaybeUninit.init).getD vs.length
        MaybeUninit.uninit = MaybeUninit.init v := by
      have h3 := getD_append_length (vs.map MaybeUninit.init)
        (MaybeUninit.init v) MaybeUninit.uninit
      rw [List.length_map] at h3
      rw [← h3]
      simp
    rw [hpos']
    simp only [Nat.add_sub_cancel]
    rw [← h1, hpre, h2]
  constructor
  · simp only [FlowerPot.pop, hemp, Bool.false_eq_true, if_false]
    rw [hval]
  · refine ⟨?_, ?_⟩
    · simp [FlowerPot.pop, hemp, hpos']
    · simp only [FlowerPot.pop, hemp, Bool.false_eq_true, if_false]
      have htt : p.items.take (p.pos - 1)
          = (p.items.take p.pos).take (p.pos - 1) := by
        rw [List.take_take]
        congr 1
        omega
      rw [htt, hpre, hpos']
      simp only [Nat.add_sub_cancel]
      rw [← List.length_map vs MaybeUninit.init, List.map_append]
      exact List.take_left _ _

/-- Pushing a list of values appends them to the represented list. -/
theorem pushList_rep {T : Type} {N : Nat} :
    ∀ (vs : List T) (p : FlowerPot T N) (acc : List T),
    rep p acc → acc.length + vs.length ≤ N →
    rep (p.pushList vs) (acc ++ vs) := by
  intro vs
  induction vs with
  | nil =>
    intro p acc h _
    simpa using h
  | cons v rest ih =>
    intro p acc h hle
    have hstep := push_rep h (by simp at hle; omega) v
    have htail := ih ((p.push v).2.1) (acc ++ [v]) hstep.2
      (by simp at hle ⊢; omega)
    simpa [FlowerPot.pushList] using htail

/-- Popping as many times as the store represents yields the values in
reverse insertion order and drains the store. -/
theorem popList_rep {T : Type} {N : Nat} :
    ∀ (vs : List T) (p : FlowerPot T N), rep p vs →
    (p.popList vs.length).1 = vs.reverse.map MaybeUninit.init ∧
      rep (p.popList vs.length).2 [] := by
  intro vs
  induction vs using List.reverseRecOn with
  | nil =>
    intro p h
    simpa [FlowerPot.popList] using h
  | append_singleton xs x ih =>
    intro p h
    obtain ⟨h1, h2⟩ := pop_rep h
    have hlen : (xs ++ [x]).length = xs.length + 1 := by simp
    rw [hlen]
    simp only [FlowerPot.popList]
    cases hpp : p.pop with
    | mk fst snd =>
      rw [hpp] at h1 h2
      simp only at h1 h2
      subst h1
      have := ih snd h2
      simp [this.1, this.2]

/-- How `push` moves the cursor, with no reachability assumption. -/
theorem push_pos {T : Type} {N : Nat} (p : FlowerPot T N) (v : T) :
    (p.push v).2.1.pos = if p.pos < N then p.pos + 1 else p.pos := by
  by_cases h : p.pos < N
  · have hful : p.full = false := by
      simp [FlowerPot.full]; omega
    simp [FlowerPot.push, hful, h]
  · have hful : p.full = true := by
      simp [FlowerPot.full]; omega
    simp [FlowerPot.push, hful, h]

/-- How `pop` moves the cursor, with no reachability assumption. -/
theorem pop_pos {T : Type} {N : Nat} (p : FlowerPot T N) :
    p.pop.2.pos = if 0 < p.pos then p.pos - 1 else p.pos := by
  by_cases h : 0 < p.pos
  · have hemp : p.empty = false := by
      simp [FlowerPot.empty]; omega
    simp [FlowerPot.pop, hemp, h]
  · have hemp : p.empty = true := by
      simp [FlowerPot.empty]; omega
    simp [FlowerPot.pop, hemp, h]

/-- Running any operation sequence preserves the cursor bound. -/
theorem run_pos_le {T : Type} {N : Nat} :
    ∀ (ops : List (Op T)) (p : FlowerPot T N),
    p.pos ≤ N → (p.run ops).pos ≤ N := by
  intro ops
  induction ops with
  | nil =>
    intro p h
    exact h
  | cons op rest ih =>
    intro p h
    cases op with
    | push v =>
      refine ih _ ?_
      rw [push_pos]
      split <;> omega
    | pop =>
      refine ih _ ?_
      rw [pop_pos]
      split <;> omega

/-- Shared helper: `push` on a full store returns the storage-full
error, leaves the store untouched and drops the consumed value. -/
theorem push_full_spec {T : Type} {N : Nat} (p : FlowerPot T N) (v : T)
    (h : p.full = true) :
    (p.push v).1 = Except.error ErrorKind.storageFull ∧
    (p.push v).2.1 = p ∧ (p.push v).2.2 = [v] := by
  simp [FlowerPot.push, h]

/-- Shared helper: the occupied view is always the `pos`-prefix of the
slot array (the `pos = 0` early return coincides with `take 0`). -/
theorem get_init_slice_eq_take {T : Type} {N : Nat} (p : FlowerPot T N) :
    p.get_init_slice = p.items.take p.pos := by
  by_cases h0 : p.pos = 0 <;> simp [FlowerPot.get_init_slice, h0]

/-- Shared helper: `len` only depends on the cursor. -/
theorem len_congr {T : Type} {N M : Nat} (p : FlowerPot T N)
    (q : FlowerPot T M) (h : p.pos = q.pos) : p.len = q.len := by
  simp [FlowerPot.len, h]

/-! Claims. -/

/-- C1: the claim fails on the code.  The source's bounds check in
`get`/`get_mut` is `index > self.pos`, so `index == cursor` is admitted
rather than excluded: on a store of capacity 2 holding one element
(`pos = 1`), `get 1` dereferences the uninitialized slot 1 and returns
a reference to it (modelled as `some uninit`) instead of "not found",
and `get_mut 1` likewise succeeds; only `index = 2 > pos` is rejected. -/
theorem get_admits_index_eq_cursor :
    ((FlowerPot.new Nat 2).push 5).2.1.pos = 1 ∧
    ((FlowerPot.new Nat 2).push 5).2.1.get 1 = some MaybeUninit.uninit ∧
    (((FlowerPot.new Nat 2).push 5).2.1.get_mut 1).isSome = true ∧
    ((FlowerPot.new Nat 2).push 5).2.1.get 2 = none := by
  refine ⟨by decide, by decide, rfl, by decide⟩

/-- C2: the claim fails on the code.  `len` computes
`pos.checked_sub(1)`, so a store of capacity 4 holding one live element
(`pos = 1`) reports `len = 0`, under-reporting the occupancy by one. -/
theorem len_underreports_nonempty :
    ((FlowerPot.new Nat 4).push 7).2.1.pos = 1 ∧
    ((FlowerPot.new Nat 4).push 7).2.1.len = 0 := by
  decide

/-- C3 counterexample: pushing 5 onto a full store (capacity 0) drops
the rejected value during the call — the list of values the call drops
is `[5]`, not empty — so ownership does not return to the caller, the
value is destroyed. -/
theorem push_full_drops_rejected_value :
    ((FlowerPot.new Nat 0).push 5).2.2 = [5] ∧
    ((FlowerPot.new Nat 0).push 5).2.2 ≠ [] := by
  decide

/-- C3 (amended): pushing onto a full store (`cursor = N`) fails with
the storage-full error and leaves the store unchanged, but the rejected
value is consumed and dropped by `push` rather than handed back to the
caller. -/
theorem push_full_fails_store_unchanged {T : Type} {N : Nat}
    (p : FlowerPot T N) (v : T) (h : p.pos = N) :
    (p.push v).1 = Except.error ErrorKind.storageFull ∧
    (p.push v).2.1 = p ∧ (p.push v).2.2 = [v] :=
  push_full_spec p v (by simp [FlowerPot.full, h])

/-- C3 witness: the amended theorem at the concrete full store of
capacity 0 and the value 3. -/
theorem push_full_fails_store_unchanged_witness :
    (FlowerPot.new Nat 0).pos = 0 ∧
    (((FlowerPot.new Nat 0).push 3).1 = Except.error ErrorKind.storageFull ∧
     ((FlowerPot.new Nat 0).push 3).2.1 = FlowerPot.new Nat 0 ∧
     ((FlowerPot.new Nat 0).push 3).2.2 = [3]) :=
  ⟨rfl, push_full_fails_store_unchanged (FlowerPot.new Nat 0) 3 rfl⟩

/-- C4: `pop` on an empty store returns "no value" and leaves the store
unchanged; after pushing `v1..vk` (for `k ≤ N`) onto a fresh store,
popping `k` times yields the values in exact reverse insertion order
(each moved out initialized), and a further pop on the drained store
returns "no value" and changes nothing. -/
theorem pop_lifo_order {T : Type} {N : Nat} (vs : List T)
    (h : vs.length ≤ N) :
    (∀ q : FlowerPot T N, q.pos = 0 → q.pop = (none, q)) ∧
    (((FlowerPot.new T N).pushList vs).popList vs.length).1
      = vs.reverse.map MaybeUninit.init ∧
    (((FlowerPot.new T N).pushList vs).popList vs.length).2.pop
      = (none, (((FlowerPot.new T N).pushList vs).popList vs.length).2) := by
  have hempty : ∀ q : FlowerPot T N, q.pos = 0 → q.pop = (none, q) := by
    intro q hq
    have : q.empty = true := by simp [FlowerPot.empty, hq]
    simp [FlowerPot.pop, this]
  have hrep : rep ((FlowerPot.new T N).pushList vs) vs := by
    simpa using pushList_rep vs (FlowerPot.new T N) [] (rep_new T N)
      (by simpa using h)
  have hdrain := popList_rep vs ((FlowerPot.new T N).pushList vs) hrep
  exact ⟨hempty, hdrain.1, hempty _ (by simpa using hdrain.2.1)⟩

/-- C4 witness: capacity 2, pushing `[1, 2]`, pops yield `2, 1`. -/
theorem pop_lifo_order_witness :
    ([1, 2] : List Nat).length ≤ 2 ∧
    ((∀ q : FlowerPot Nat 2, q.pos = 0 → q.pop = (none, q)) ∧
     (((FlowerPot.new Nat 2).pushList [1, 2]).popList
        ([1, 2] : List Nat).length).1
       = ([1, 2] : List Nat).reverse.map MaybeUninit.init ∧
     (((FlowerPot.new Nat 2).pushList [1, 2]).popList
        ([1, 2] : List Nat).length).2.pop
       = (none, (((FlowerPot.new Nat 2).pushList [1, 2]).popList
            ([1, 2] : List Nat).length).2)) :=
  ⟨by decide, pop_lifo_order [1, 2] (by decide)⟩

/-- C5: on a non-full store (`cursor < N`), `push v` succeeds, writes
`v` into slot `cursor`, increments the cursor by one, and leaves every
previously occupied slot's content unchanged. -/
theorem push_nonfull_succeeds {T : Type} {N : Nat} (p : FlowerPot T N)
    (v : T) (h : p.pos < N) :
    (p.push v).1 = Except.ok () ∧
    (p.push v).2.1.pos = p.pos + 1 ∧
    (p.push v).2.1.items.getD p.pos MaybeUninit.uninit
      = MaybeUninit.init v ∧
    ∀ i, i < p.pos →
      (p.push v).2.1.items.getD i MaybeUninit.uninit
        = p.items.getD i MaybeUninit.uninit := by
  have hful : p.full = false := by simp [FlowerPot.full]; omega
  have hlen : p.pos < p.items.length := by rw [p.len_eq]; exact h
  refine ⟨by simp [FlowerPot.push, hful], by simp [FlowerPot.push, hful],
    ?_, ?_⟩
  · simp only [FlowerPot.push, hful, Bool.false_eq_true, if_false]
    exact getD_set_self _ _ _ _ hlen
  · intro i hi
    simp only [FlowerPot.push, hful, Bool.false_eq_true, if_false]
    exact getD_set_ne _ _ _ _ _ (by omega)

/-- C5 witness: the fresh store of capacity 2 and the value 5. -/
theorem push_nonfull_succeeds_witness :
    (FlowerPot.new Nat 2).pos < 2 ∧
    (((FlowerPot.new Nat 2).push 5).1 = Except.ok () ∧
     ((FlowerPot.new Nat 2).push 5).2.1.pos = (FlowerPot.new Nat 2).pos + 1 ∧
     ((FlowerPot.new Nat 2).push 5).2.1.items.getD (FlowerPot.new Nat 2).pos
        MaybeUninit.uninit = MaybeUninit.init 5 ∧
     ∀ i, i < (FlowerPot.new Nat 2).pos →
       ((FlowerPot.new Nat 2).push 5).2.1.items.getD i MaybeUninit.uninit
         = (FlowerPot.new Nat 2).items.getD i MaybeUninit.uninit) :=
  ⟨by decide, push_nonfull_succeeds (FlowerPot.new Nat 2) 5 (by decide)⟩

/-- C6: the occupied view is the `pos`-prefix of the slots, has length
exactly `cursor` (for any store whose cursor respects the capacity
bound), the mutable view shows the same prefix, the empty store yields
an empty view rather than a failure, and after pushing `v1..vk` onto a
fresh store the view is exactly those values in insertion order. -/
theorem get_init_slice_view {T : Type} {N : Nat} (p : FlowerPot T N)
    (vs : List T) (h : p.pos ≤ N) (hvs : vs.length ≤ N) :
    p.get_init_slice = p.items.take p.pos ∧
    p.get_init_slice.length = p.pos ∧
    (p.get_init_slice_mut).1 = p.get_init_slice ∧
    (p.pos = 0 → p.get_init_slice = []) ∧
    ((FlowerPot.new T N).pushList vs).get_init_slice
      = vs.map MaybeUninit.init := by
  have htake := get_init_slice_eq_take p
  refine ⟨htake, ?_, ?_, ?_, ?_⟩
  · rw [htake]
    simp only [List.length_take, p.len_eq]
    omega
  · by_cases h0 : p.pos = 0 <;>
      simp [FlowerPot.get_init_slice, FlowerPot.get_init_slice_mut, h0]
  · intro h0
    simp [FlowerPot.get_init_slice, h0]
  · have hrep : rep ((FlowerPot.new T N).pushList vs) vs := by
      simpa using pushList_rep vs (FlowerPot.new T N) [] (rep_new T N)
        (by simpa using hvs)
    rw [get_init_slice_eq_take, hrep.2]

/-- C6 witness: a capacity-3 store holding one element, and the pushed
list `[4, 5]`. -/
theorem get_init_slice_view_witness :
    ((FlowerPot.new Nat 3).push 9).2.1.pos ≤ 3 ∧
    ([4, 5] : List Nat).length ≤ 3 ∧
    (((FlowerPot.new Nat 3).push 9).2.1.get_init_slice
       = ((FlowerPot.new Nat 3).push 9).2.1.items.take
           ((FlowerPot.new Nat 3).push 9).2.1.pos ∧
     ((FlowerPot.new Nat 3).push 9).2.1.get_init_slice.length
       = ((FlowerPot.new Nat 3).push 9).2.1.pos ∧
     (((FlowerPot.new Nat 3).push 9).2.1.get_init_slice_mut).1
       = ((FlowerPot.new Nat 3).push 9).2.1.get_init_slice ∧
     (((FlowerPot.new Nat 3).push 9).2.1.pos = 0 →
       ((FlowerPot.new Nat 3).push 9).2.1.get_init_slice = []) ∧
     ((FlowerPot.new Nat 3).pushList [4, 5]).get_init_slice
       = ([4, 5] : List Nat).map MaybeUninit.init) :=
  ⟨by decide, by decide,
    get_init_slice_view ((FlowerPot.new Nat 3).push 9).2.1 [4, 5]
      (by decide) (by decide)⟩

/-- C7: starting from the fresh store, any sequence of pushes and pops
keeps the cursor within `[0, N]` (it is a natural number, hence never
negative); moreover `push` increments the cursor exactly when
`cursor < N` and otherwise leaves it alone, and `pop` decrements it
exactly when `cursor > 0` and otherwise leaves it alone. -/
theorem cursor_stays_in_range {T : Type} {N : Nat} :
    (∀ ops : List (Op T), ((FlowerPot.new T N).run ops).pos ≤ N) ∧
    (∀ (p : FlowerPot T N) (v : T),
      (p.push v).2.1.pos = if p.pos < N then p.pos + 1 else p.pos) ∧
    (∀ p : FlowerPot T N,
      p.pop.2.pos = if 0 < p.pos then p.pos - 1 else p.pos) := by
  refine ⟨?_, push_pos, pop_pos⟩
  intro ops
  exact run_pos_le ops (FlowerPot.new T N) (by simp [FlowerPot.new])

/-- C8: on a non-full store, pushing `v` and then popping immediately
returns `v` (moved out initialized) and restores both the cursor and
the reported occupancy count to their pre-push values. -/
theorem push_pop_roundtrip {T : Type} {N : Nat} (p : FlowerPot T N)
    (v : T) (h : p.pos < N) :
    ((p.push v).2.1).pop.1 = some (MaybeUninit.init v) ∧
    ((p.push v).2.1).pop.2.pos = p.pos ∧
    ((p.push v).2.1).pop.2.len = p.len := by
  have hful : p.full = false := by simp [FlowerPot.full]; omega
  have hlen : p.pos < p.items.length := by rw [p.len_eq]; exact h
  have hq : (p.push v).2.1.pos = p.pos + 1 := by
    simp [FlowerPot.push, hful]
  have hitems : (p.push v).2.1.items
      = p.items.set p.pos (MaybeUninit.init v) := by
    simp [FlowerPot.push, hful]
  have hemp : (p.push v).2.1.empty = false := by
    simp [FlowerPot.empty, hq]
  have hposeq : ((p.push v).2.1).pop.2.pos = p.pos := by
    rw [pop_pos, hq]
    simp
  refine ⟨?_, hposeq, len_congr _ _ hposeq⟩
  simp only [FlowerPot.pop, hemp, Bool.false_eq_true, if_false]
  rw [hitems, hq, Nat.add_sub_cancel]
  rw [getD_set_self _ _ _ _ hlen]

/-- C8 witness: the fresh store of capacity 1 and the value 7. -/
theorem push_pop_roundtrip_witness :
    (FlowerPot.new Nat 1).pos < 1 ∧
    ((((FlowerPot.new Nat 1).push 7).2.1).pop.1
       = some (MaybeUninit.init 7) ∧
     (((FlowerPot.new Nat 1).push 7).2.1).pop.2.pos
       = (FlowerPot.new Nat 1).pos ∧
     (((FlowerPot.new Nat 1).push 7).2.1).pop.2.len
       = (FlowerPot.new Nat 1).len) :=
  ⟨by decide, push_pop_roundtrip (FlowerPot.new Nat 1) 7 (by decide)⟩

/-- C9: the accessors never move the cursor.  `get` and
`get_init_slice` borrow the store immutably, so in the model they are
pure functions of the store and return no modified store at all; the
only mutation channels the accessors open are the write-backs of the
`get_mut` borrow and of the mutable occupied view, and writing any
value through either leaves the cursor exactly where it was. -/
theorem mut_accessors_preserve_cursor {T : Type} {N : Nat}
    (p : FlowerPot T N) (index : Nat) (v : T) :
    (match p.get_mut index with
     | none => True
     | some r => (r.2 v).pos = p.pos) ∧
    ((p.get_init_slice_mut).2 index v).pos = p.pos := by
  constructor
  · by_cases h : index > p.pos <;> simp [FlowerPot.get_mut, h]
  · by_cases h0 : p.pos = 0
    · simp [FlowerPot.get_init_slice_mut, h0]
    · by_cases hi : index < p.pos <;>
        simp [FlowerPot.get_init_slice_mut, h0, hi]

/-- C10: with capacity `N = 0` the fresh store is simultaneously empty
and full (`full` tests `pos >= N`, which holds at `pos = 0`), and every
push on a capacity-0 store fails with the storage-full error, leaving
the store unchanged (the rejected value is dropped). -/
theorem zero_capacity_full_and_empty (T : Type) :
    (FlowerPot.new T 0).empty = true ∧
    (FlowerPot.new T 0).full = true ∧
    ∀ (p : FlowerPot T 0) (v : T),
      (p.push v).1 = Except.error ErrorKind.storageFull ∧
      (p.push v).2.1 = p ∧ (p.push v).2.2 = [v] := by
  refine ⟨by simp [FlowerPot.new, FlowerPot.empty],
    by simp [FlowerPot.new, FlowerPot.full], ?_⟩
  intro p v
  exact push_full_spec p v (by simp [FlowerPot.full])

end Flowerpot
